import Mathlib

/-!
Shallow embedding of the django-autotagger rule engine
(src/autotag/rule_engine.py, src/autotag/models.py, src/autotag/utils.py,
src/transactions/models.py).

Modelling conventions:
* Python values flowing through JSON fields (metadata, rule_config,
  conditions) are modelled by the inductive type `Value`.  JSON numeric
  literals are modelled as integers (`vint`); the `Transaction.produce_rate`
  Decimal column is modelled as a rational (`vdec`).
* Python exceptions are modelled with `Except PyErr`; code that catches
  exceptions pattern-matches on `Except.error`.
* External library calls are parameters of the embedding: `RE` stands for
  Python `re.search` (returns whether the pattern matched, or raises on a
  malformed pattern), `cel` stands for celpy compilation+evaluation of one
  CEL expression against a context, `pySyntaxOk` stands for the CPython
  `compile(script, ..., "exec")` syntax check, and `now` is the
  `timezone.now().isoformat()` wall-clock string.
* The security logger is modelled by returning the list of emitted
  structured events next to the result.
-/

/-- Python exceptions that the modelled code can raise. -/
inductive PyErr where
  | attributeError (msg : String)
  | typeError (msg : String)
  | valueError (msg : String)
  | keyError (msg : String)
  deriving DecidableEq, Repr

/-- JSON-ish Python values (metadata values, rule_config entries, condition
trees).  `vdec` models `decimal.Decimal` (the `produce_rate` column); plain
JSON numbers appear as `vint`. -/
inductive Value where
  | vnone
  | vbool (b : Bool)
  | vint (n : Int)
  | vdec (q : ℚ)
  | vstr (s : String)
  | vlist (l : List Value)
  | vdict (d : List (String × Value))

/-- First-match association-list lookup (Python dict access; dict keys are
unique, so first match is the match). -/
def alookup {α : Type} (k : String) : List (String × α) → Option α
  | [] => none
  | (k2, v) :: r => if k = k2 then some v else alookup k r

/-- Python `d.get(key, default)`. -/
def getd (k : String) (dflt : Value) (d : List (String × Value)) : Value :=
  (alookup k d).getD dflt

/-- Numeric view of a value for Python's cross-type numeric equality
(`True == 1`, `Decimal("1") == 1`). -/
def pyNum : Value → Option ℚ
  | .vbool b => some (if b then 1 else 0)
  | .vint n => some (n : ℚ)
  | .vdec q => some q
  | _ => none

/-- Python truthiness (`if x:`). -/
def pyTruthy : Value → Bool
  | .vnone => false
  | .vbool b => b
  | .vint n => n != 0
  | .vdec q => q != 0
  | .vstr s => s != ""
  | .vlist l => !l.isEmpty
  | .vdict d => !d.isEmpty

/-- Does the first character list start with the second?  (Structural
helper used for the Python string operations, kept kernel-computable.) -/
def listStarts : List Char → List Char → Bool
  | [], _ => true
  | _ :: _, [] => false
  | a :: as2, b :: bs2 => a == b && listStarts as2 bs2

/-- Is the first list a contiguous sub-list of the second? -/
def listHasSub (needle : List Char) : List Char → Bool
  | [] => listStarts needle []
  | c :: t => listStarts needle (c :: t) || listHasSub needle t

/-- Python substring test `needle in hay` on strings. -/
def pySubstr (needle hay : String) : Bool :=
  listHasSub needle.data hay.data

/-- Python `s.startswith(pre)`. -/
def strStarts (pre s : String) : Bool :=
  listStarts pre.data s.data

/-- Python slicing `s[n:]` (by code point). -/
def strDrop (s : String) (n : Nat) : String :=
  String.mk (s.data.drop n)

/-- Python slicing `s[:n]` (by code point). -/
def strTake (s : String) (n : Nat) : String :=
  String.mk (s.data.take n)

/-- Python `s.strip()` over the common ASCII whitespace (Python also strips
some unicode whitespace; outside the modelled input space). -/
def pyStrip (s : String) : String :=
  let ws := fun c => c == ' ' || c == '\t' || c == '\n' || c == '\r' ||
    c == '\x0b' || c == '\x0c'
  String.mk (((s.data.dropWhile ws).reverse.dropWhile ws).reverse)

/-- Python `sep.join(parts)`. -/
def pyJoin (sep : String) : List String → String
  | [] => ""
  | [s] => s
  | s :: rest => s ++ sep ++ pyJoin sep rest

/-- Python string `<` (lexicographic by code point, as in Lean). -/
def strLt (a b : String) : Bool := a < b

/-- Value of a digit string (caller checks the characters). -/
def digitsVal (s : String) : Nat :=
  s.data.foldl (fun n c => n * 10 + (c.toNat - 48)) 0

/-- Split a character list on the dot character (the decimal point of a
float literal). -/
def splitDot : List Char → List (List Char)
  | [] => [[]]
  | c :: t =>
    match splitDot t with
    | [] => [[]]
    | h :: r => if c == '.' then [] :: h :: r else (c :: h) :: r

/-- Model of CPython `float(s)` on a string: optional sign, then either
`digits`, `digits.digits`, `digits.` or `.digits`.  (Exponents, infinities,
nan, embedded underscores and surrounding whitespace — all accepted by
CPython — are outside the modelled input space.)  `none` models a raised
`ValueError`. -/
def parseFloatStr (s : String) : Option ℚ :=
  let (sgn, rest) :=
    if strStarts "-" s then ((-1 : ℚ), strDrop s 1)
    else if strStarts "+" s then ((1 : ℚ), strDrop s 1)
    else ((1 : ℚ), s)
  match splitDot rest.data with
  | [a] =>
    if a ≠ [] ∧ a.all Char.isDigit then
      some (sgn * (digitsVal (String.mk a) : ℚ))
    else none
  | [a, b] =>
    if (a ≠ [] ∨ b ≠ []) ∧ a.all Char.isDigit ∧ b.all Char.isDigit then
      some (sgn * ((digitsVal (String.mk a) : ℚ) +
        (digitsVal (String.mk b) : ℚ) / (10 : ℚ) ^ b.length))
    else none
  | _ => none

/-- Model of Python `float(x)`: numbers and numeric strings succeed, `None`
and containers raise (`none`). -/
def pyFloat : Value → Option ℚ
  | .vbool b => some (if b then 1 else 0)
  | .vint n => some (n : ℚ)
  | .vdec q => some q
  | .vstr s => parseFloatStr s
  | _ => none

/-- Decimal-style rendering of a rational (used for `str(produce_rate)`):
integer part, then a point and the fractional digits when the denominator
divides a power of ten; otherwise a fraction fallback (never reached for
values stored by the 4-decimal-place column). -/
def decStr (q : ℚ) : String :=
  if q.den = 1 then toString q.num
  else
    match (List.range 40).find? (fun k => (q * (10 : ℚ) ^ (k + 1)).den = 1) with
    | some k =>
      let places := k + 1
      let scaled := (q * (10 : ℚ) ^ places).num.natAbs
      let digits := toString scaled
      let padded :=
        if digits.length < places + 1 then
          String.mk (List.replicate (places + 1 - digits.length) '0') ++ digits
        else digits
      let cut := padded.length - places
      (if q < 0 then "-" else "") ++ padded.take cut ++ "." ++ padded.drop cut
    | none => toString q

mutual

/-- Python `repr` of a JSON-ish value (element rendering inside `str` of a
container).  `vdec` uses its decimal form (the `Decimal(...)` wrapper of the
real repr is not modelled; decimals never occur inside JSON containers). -/
def pyRepr : Value → String
  | .vnone => "None"
  | .vbool true => "True"
  | .vbool false => "False"
  | .vint n => toString n
  | .vdec q => decStr q
  | .vstr s => "'" ++ s ++ "'"
  | .vlist l => "[" ++ String.intercalate ", " (pyReprList l) ++ "]"
  | .vdict d => "\x7b" ++ String.intercalate ", " (pyReprDict d) ++ "\x7d"

def pyReprList : List Value → List String
  | [] => []
  | v :: r => pyRepr v :: pyReprList r

def pyReprDict : List (String × Value) → List String
  | [] => []
  | (k, v) :: r => ("'" ++ k ++ "': " ++ pyRepr v) :: pyReprDict r

end

/-- Python `str(x)`. -/
def pyStr : Value → String
  | .vstr s => s
  | v => pyRepr v

mutual

/-- Python `==` on JSON-ish values: `None` equals only `None`, strings
compare by content, numbers (including booleans and decimals) compare
numerically across types, lists compare pointwise, dicts compare as
key→value maps irrespective of insertion order; values of different shapes
are unequal. -/
def pyEq : Value → Value → Bool
  | .vnone, .vnone => true
  | .vstr a, .vstr b => a == b
  | .vlist a, .vlist b => pyEqList a b
  | .vdict a, .vdict b => a.length == b.length && pyEqDictSub a b
  | a, b =>
    match pyNum a, pyNum b with
    | some x, some y => x == y
    | _, _ => false

def pyEqList : List Value → List Value → Bool
  | [], [] => true
  | a :: as2, b :: bs2 => pyEq a b && pyEqList as2 bs2
  | _, _ => false

def pyEqDictSub : List (String × Value) → List (String × Value) → Bool
  | [], _ => true
  | (k, v) :: r, b =>
    (match alookup k b with
     | some w => pyEq v w
     | none => false) && pyEqDictSub r b

end

/-- The Transaction row consumed by the engine (src/transactions/models.py).
`created_at` is carried as its ISO-8601 rendering; `external_data` is the
optional one-to-one metadata record (its JSON map), `none` when the related
object is absent. -/
structure Transaction where
  id : Int
  product_code : String
  produce_rate : ℚ
  ledger_type : String
  source : String
  jurisdiction : String
  created_at : String
  external_data : Option (List (String × Value))

/-- `getattr(transaction, name, None)` over the modelled columns.  Other ORM
attributes (timestamps, reverse relations) are outside the modelled
attribute space and fall to the `None` default. -/
def txAttr (tx : Transaction) (f : String) : Value :=
  if f = "product_code" then .vstr tx.product_code
  else if f = "produce_rate" then .vdec tx.produce_rate
  else if f = "ledger_type" then .vstr tx.ledger_type
  else if f = "source" then .vstr tx.source
  else if f = "jurisdiction" then .vstr tx.jurisdiction
  else if f = "created_at" then .vstr tx.created_at
  else if f = "id" then .vint tx.id
  else .vnone

/-- A structured record sent to the `autotag.security` logger. -/
structure SecurityEvent where
  event_type : String
  detail : String
  deriving DecidableEq, Repr

/-- The type of the modelled `re.search(pattern, text)` call: `ok b` tells
whether a match was found, `error` models `re.error` on a malformed
pattern. -/
def RegexSearch : Type := String → String → Except PyErr Bool

/-- `ConditionalRuleProcessor._get_field_value` (rule_engine.py:145-150).
The field path must be a string (any other value raises `AttributeError`
from `.startswith`); a `metadata.`-prefixed path reads the metadata map
(missing key → `None` via `dict.get`), anything else reads a transaction
attribute with default `None`. -/
def get_field_value (tx : Transaction) (md : List (String × Value)) :
    Value → Except PyErr Value
  | .vstr f =>
    if strStarts "metadata." f then
      .ok ((alookup (strDrop f 9) md).getD .vnone)
    else .ok (txAttr tx f)
  | _ => .error (.attributeError "object has no attribute startswith")

/-- `ConditionalRuleProcessor._compare_values` (rule_engine.py:152-176).
The operator is compared against the known operator strings with Python
`==`; an unknown (or non-string) operator yields `false`.  Relational
operators first try `float()` on both sides and fall back to comparing the
`str()` forms; `contains` is a substring test on the `str()` forms; `regex`
delegates to `re.search` (which can raise). -/
def compare_values (RE : RegexSearch) (actual : Value) (op : Value)
    (expected : Value) : Except PyErr Bool :=
  if pyEq op (.vstr "equals") then .ok (pyEq actual expected)
  else if pyEq op (.vstr "not_equals") then .ok (!pyEq actual expected)
  else if pyEq op (.vstr "greater_than") then
    match pyFloat actual, pyFloat expected with
    | some a, some b => .ok (decide (b < a))
    | _, _ => .ok (strLt (pyStr expected) (pyStr actual))
  else if pyEq op (.vstr "less_than") then
    match pyFloat actual, pyFloat expected with
    | some a, some b => .ok (decide (a < b))
    | _, _ => .ok (strLt (pyStr actual) (pyStr expected))
  else if pyEq op (.vstr "contains") then
    .ok (pySubstr (pyStr expected) (pyStr actual))
  else if pyEq op (.vstr "regex") then RE (pyStr expected) (pyStr actual)
  else .ok false

/-- Combination of sub-condition results (rule_engine.py:129-134): `and` is
`all`, `or` is `any`, any other operator value yields `false`. -/
def boolComb (op : Value) (results : List Bool) : Bool :=
  if pyEq op (.vstr "and") then results.all id
  else if pyEq op (.vstr "or") then results.any id
  else false

/-- Size bound used by the termination argument of `evalCondition`: a value
found in an association list is smaller than the list. -/
def alookup_sizeOf {k : String} : {d : List (String × Value)} → {v : Value} →
    alookup k d = some v → sizeOf v < sizeOf d
  | [], _, h => by simp [alookup] at h
  | (k2, w) :: r, v, h => by
    by_cases hk : k = k2
    · simp [alookup, hk] at h
      subst h
      simp
      omega
    · have h2 : alookup k r = some v := by simpa [alookup, hk] using h
      have := alookup_sizeOf h2
      simp
      omega

mutual

/-- `ConditionalRuleProcessor._evaluate_condition` (rule_engine.py:120-143).
A dict with a `conditions` key is a compound: its sub-conditions are
evaluated eagerly (list comprehension) and combined with `boolComb`; the
iterable may also be an empty string or empty dict (zero iterations), while
a non-empty string or dict iterates strings whose `.get` raises
`AttributeError`, and other values are not iterable (`TypeError`).  Any
other dict is a leaf `{field, operator, value}`.  A non-dict condition
always raises: strings and lists support `in` but have no `.get`
(`AttributeError`); `None`, booleans and numbers fail the `'conditions' in
condition` containment test itself (`TypeError`). -/
def evalCondition (RE : RegexSearch) (tx : Transaction)
    (md : List (String × Value)) : Value → Except PyErr Bool
  | .vdict d =>
    match h : alookup "conditions" d with
    | some subs =>
      let op := getd "operator" (.vstr "and") d
      match subs with
      | .vlist l =>
        match evalCondList RE tx md l with
        | .error e => .error e
        | .ok results => .ok (boolComb op results)
      | .vstr s =>
        if s = "" then .ok (boolComb op [])
        else .error (.attributeError "str object has no attribute get")
      | .vdict d2 =>
        if d2.isEmpty then .ok (boolComb op [])
        else .error (.attributeError "str object has no attribute get")
      | _ => .error (.typeError "object is not iterable")
    | none =>
      let fieldV := getd "field" .vnone d
      let opV := getd "operator" .vnone d
      let expV := getd "value" .vnone d
      match get_field_value tx md fieldV with
      | .error e => .error e
      | .ok actual => compare_values RE actual opV expV
  | .vstr _ => .error (.attributeError "str object has no attribute get")
  | .vlist _ => .error (.attributeError "list object has no attribute get")
  | _ => .error (.typeError "argument of type is not iterable")
termination_by v => sizeOf v
decreasing_by
  simp_wf
  have := alookup_sizeOf h
  simp at this ⊢
  omega

def evalCondList (RE : RegexSearch) (tx : Transaction)
    (md : List (String × Value)) : List Value → Except PyErr (List Bool)
  | [] => .ok []
  | c :: cs =>
    match evalCondition RE tx md c with
    | .error e => .error e
    | .ok b =>
      match evalCondList RE tx md cs with
      | .error e => .error e
      | .ok bs => .ok (b :: bs)
termination_by l => sizeOf l
decreasing_by
  all_goals simp_wf
  all_goals omega

end

/-- Python membership `x in container`: dict membership tests keys, list
membership tests elements with `==`, string containment needs a string
operand; other containers raise `TypeError`. -/
def pyMem (x : Value) (container : Value) : Except PyErr Bool :=
  match container with
  | .vdict d => .ok (d.any (fun kv => pyEq x (.vstr kv.1)))
  | .vlist l => .ok (l.any (fun v => pyEq x v))
  | .vstr s =>
    match x with
    | .vstr n => .ok (pySubstr n s)
    | _ => .error (.typeError "in str requires str as left operand")
  | _ => .error (.typeError "argument is not a container")

/-- Python subscription `container[key]` for a string key: dict lookup
(`KeyError` when absent), anything else raises `TypeError`. -/
def pySubscript (container : Value) (key : String) : Except PyErr Value :=
  match container with
  | .vdict d =>
    match alookup key d with
    | some v => .ok v
    | none => .error (.keyError key)
  | _ => .error (.typeError "object is not subscriptable")

/-- The transaction field names the simple processor maps directly
(rule_engine.py:56-58). -/
def transactionFields : List String :=
  ["product_code", "source", "jurisdiction", "ledger_type"]

/-- The string value of one of the four mappable transaction columns (all
CharFields). -/
def txFieldStr (tx : Transaction) (f : String) : String :=
  if f = "product_code" then tx.product_code
  else if f = "source" then tx.source
  else if f = "jurisdiction" then tx.jurisdiction
  else tx.ledger_type

/-- First loop of `SimpleRuleProcessor.process` (rule_engine.py:61-65):
walk the mappings in declared order, consider only transaction fields, and
return the mapped tag for the first field whose (truthy) value is a key of
its mapping. -/
def simpleTxLoop (tx : Transaction) :
    List (String × Value) → Except PyErr (Option Value)
  | [] => .ok none
  | (f, fm) :: rest =>
    if f ∈ transactionFields then
      let tv := txFieldStr tx f
      if tv ≠ "" then
        match pyMem (.vstr tv) fm with
        | .error e => .error e
        | .ok true =>
          match pySubscript fm tv with
          | .error e => .error e
          | .ok tag => .ok (some tag)
        | .ok false => simpleTxLoop tx rest
      else simpleTxLoop tx rest
    else simpleTxLoop tx rest

/-- Second loop of `SimpleRuleProcessor.process` (rule_engine.py:68-75):
walk the mappings in declared order, skip transaction fields, and return
the tag mapped from the stringified metadata value of the first field that
is present in the metadata and whose `str()` is a key of its mapping. -/
def simpleMetaLoop (md : List (String × Value)) :
    List (String × Value) → Except PyErr (Option Value)
  | [] => .ok none
  | (f, fm) :: rest =>
    if f ∈ transactionFields then simpleMetaLoop md rest
    else
      match alookup f md with
      | none => simpleMetaLoop md rest
      | some v =>
        match pyMem (.vstr (pyStr v)) fm with
        | .error e => .error e
        | .ok true =>
          match pySubscript fm (pyStr v) with
          | .error e => .error e
          | .ok tag => .ok (some tag)
        | .ok false => simpleMetaLoop md rest

/-- Body of `SimpleRuleProcessor.process` once `mappings` has been read:
transaction-field pass, then metadata pass, else `None`. -/
def simpleProcessMappings (tx : Transaction) (md : List (String × Value))
    (m : List (String × Value)) : Except PyErr Value :=
  match simpleTxLoop tx m with
  | .error e => .error e
  | .ok (some tag) => .ok tag
  | .ok none =>
    match simpleMetaLoop md m with
    | .error e => .error e
    | .ok (some tag) => .ok tag
    | .ok none => .ok .vnone

/-- `SimpleRuleProcessor.process` (rule_engine.py:52-77).  `mappings`
defaults to `{}`; calling `.items()` on a non-dict raises
`AttributeError`. -/
def SimpleRuleProcessor.process (tx : Transaction)
    (md : List (String × Value)) (cfg : List (String × Value)) :
    Except PyErr Value :=
  match getd "mappings" (.vdict []) cfg with
  | .vdict m => simpleProcessMappings tx md m
  | _ => .error (.attributeError "object has no attribute items")

/-- `ConditionalRuleProcessor.process` (rule_engine.py:111-118): evaluate
the top-level clauses in order and return the `tag` of the first true one.
The `conditions` value defaults to `[]`; iterating a non-empty string or
dict feeds strings to `_evaluate_condition`, which raises
(`AttributeError`); other non-list values are not iterable. -/
def ConditionalRuleProcessor.process (RE : RegexSearch) (tx : Transaction)
    (md : List (String × Value)) (cfg : List (String × Value)) :
    Except PyErr Value :=
  let rec loop : List Value → Except PyErr Value
    | [] => .ok .vnone
    | c :: cs =>
      match evalCondition RE tx md c with
      | .error e => .error e
      | .ok true =>
        match c with
        | .vdict d => .ok (getd "tag" .vnone d)
        | _ => .error (.attributeError "object has no attribute get")
      | .ok false => loop cs
  match getd "conditions" (.vlist []) cfg with
  | .vlist l => loop l
  | .vstr s =>
    if s = "" then .ok .vnone
    else .error (.attributeError "str object has no attribute get")
  | .vdict d =>
    if d.isEmpty then .ok .vnone
    else .error (.attributeError "str object has no attribute get")
  | _ => .error (.typeError "object is not iterable")

/-- The CEL evaluation context built by `CelRuleProcessor.process`
(rule_engine.py:215-227): the celpy-converted transaction view, the
metadata map and the wall-clock instant. -/
structure CelContext where
  transaction : Value
  metadata : Value
  now : Value

/-- The type of the modelled celpy compile+evaluate call for one CEL
expression: `error` covers both compile errors and evaluation errors
(`CELEvalError`), `ok` is the resulting value converted back from CEL. -/
def CelEval : Type := String → CelContext → Except PyErr Value

/-- Context construction of `CelRuleProcessor.process`
(rule_engine.py:215-227). -/
def buildCelContext (tx : Transaction) (md : List (String × Value))
    (now : String) : CelContext :=
  { transaction := .vdict
      [("product_code", .vstr tx.product_code),
       ("produce_rate", .vdec tx.produce_rate),
       ("ledger_type", .vstr tx.ledger_type),
       ("source", .vstr tx.source),
       ("jurisdiction", .vstr tx.jurisdiction),
       ("created_at", .vstr tx.created_at)]
    metadata := .vdict md
    now := .vstr now }

/-- `CelRuleProcessor._evaluate_single_expression` (rule_engine.py:270-303):
a falsy `expression` returns `default_tag` without evaluating; a failing
compile/evaluation logs `cel_expression_error` and returns `default_tag`
(a truthy non-string expression also fails at compile time); a resulting
string that is non-empty after `strip()` is returned, anything else gives
`default_tag`. -/
def evaluate_single_expression (cel : CelEval) (ctx : CelContext)
    (cfg : List (String × Value)) : Value × List SecurityEvent :=
  let expression := getd "expression" (.vstr "") cfg
  let default_tag := getd "default_tag" .vnone cfg
  if !pyTruthy expression then (default_tag, [])
  else
    match expression with
    | .vstr e =>
      match cel e ctx with
      | .error _ => (default_tag, [⟨"cel_expression_error", e⟩])
      | .ok v =>
        match v with
        | .vstr s => if pyStrip s ≠ "" then (v, []) else (default_tag, [])
        | _ => (default_tag, [])
    | other => (default_tag, [⟨"cel_expression_error", pyStr other⟩])

/-- `CelRuleProcessor._evaluate_conditions` (rule_engine.py:305-344): scan
the entries in order, skip entries whose `expression` or `tag` is falsy,
log `cel_condition_error` and continue on a failing compile/evaluation, and
return the first `tag` whose expression evaluates truthy, else
`default_tag`.  Entries are read with `.get`, so a non-dict entry raises
`AttributeError` outside the per-entry handler. -/
def evaluate_conditions (cel : CelEval) (ctx : CelContext)
    (cfg : List (String × Value)) :
    Except PyErr (Value × List SecurityEvent) :=
  let default_tag := getd "default_tag" .vnone cfg
  let rec loop (events : List SecurityEvent) :
      List Value → Except PyErr (Value × List SecurityEvent)
    | [] => .ok (default_tag, events)
    | c :: cs =>
      match c with
      | .vdict d =>
        let expression := getd "expression" (.vstr "") d
        let tag := getd "tag" .vnone d
        if !pyTruthy expression || !pyTruthy tag then loop events cs
        else
          match expression with
          | .vstr e =>
            match cel e ctx with
            | .error _ => loop (events ++ [⟨"cel_condition_error", e⟩]) cs
            | .ok v => if pyTruthy v then .ok (tag, events) else loop events cs
          | other =>
            loop (events ++ [⟨"cel_condition_error", pyStr other⟩]) cs
      | _ => .error (.attributeError "object has no attribute get")
  match getd "conditions" (.vlist []) cfg with
  | .vlist l => loop [] l
  | .vstr s =>
    if s = "" then .ok (default_tag, [])
    else .error (.attributeError "str object has no attribute get")
  | .vdict d =>
    if d.isEmpty then .ok (default_tag, [])
    else .error (.attributeError "str object has no attribute get")
  | _ => .error (.typeError "object is not iterable")

/-- `CelRuleProcessor.process` (rule_engine.py:212-268).  Mode dispatch:
an `expression` key wins, then a `conditions` key, then the legacy `script`
key; with none of them the result is `None`.  A legacy script that is empty
or contains `def ` or `return` is refused without evaluation and logged as
`legacy_python_script` (preview truncated to 100 characters); otherwise the
script text is evaluated as a single expression under a config that carries
only that expression (so no `default_tag` applies).  Every exception
escaping the dispatch — e.g. a non-dict `conditions` entry, or a non-string
`script` (sliced or searched for keywords) — is caught by the outer
handler, logged as `cel_evaluation_error`, and turned into `None`. -/
def CelRuleProcessor.process (cel : CelEval) (now : String)
    (tx : Transaction) (md : List (String × Value))
    (cfg : List (String × Value)) : Value × List SecurityEvent :=
  let ctx := buildCelContext tx md now
  if (alookup "expression" cfg).isSome then
    evaluate_single_expression cel ctx cfg
  else if (alookup "conditions" cfg).isSome then
    match evaluate_conditions cel ctx cfg with
    | .ok r => r
    | .error _ => (.vnone, [⟨"cel_evaluation_error", ""⟩])
  else
    match alookup "script" cfg with
    | some (.vstr s) =>
      if s ≠ "" ∧ ¬(pySubstr "def " s ∨ pySubstr "return" s) then
        evaluate_single_expression cel ctx [("expression", .vstr s)]
      else (.vnone, [⟨"legacy_python_script", strTake s 100⟩])
    | some _ => (.vnone, [⟨"cel_evaluation_error", ""⟩])
    | none => (.vnone, [])

/-- A `TaggingRule` row scoped to one company (src/autotag/models.py:48-85).
The owning company and the timestamps are outside the modelled behavior. -/
structure TaggingRule where
  name : String
  rule_type : String
  priority : Int
  rule_config : List (String × Value)
  conditions : Value
  is_active : Bool

/-- A `TransactionTag` row (src/autotag/models.py:24-45); timestamps are
carried as opaque strings. -/
structure TagRow where
  txId : Int
  companyId : Int
  tag_code : Value
  confidence_score : ℚ
  is_manual_override : Bool
  processing_notes : String
  created_at : String
  updated_at : String

/-- The `transaction_tags` table. -/
abbrev Db : Type := List TagRow

/-- `TransactionTag.objects.update_or_create(transaction, company,
defaults={tag_code, confidence_score, processing_notes, updated_at})`
(rule_engine.py:441-450): if a row for the key exists it is updated in
place (the other fields — notably `is_manual_override` and `created_at` — keep
their values); otherwise a fresh row is appended with the model defaults
(`is_manual_override = False`, `created_at = now`).  `upsertRow` is the
per-row update applied by the update branch. -/
def upsertRow (t c : Int) (tag : Value) (conf : ℚ) (notes : String)
    (now : String) (r : TagRow) : TagRow :=
  if r.txId = t ∧ r.companyId = c then
    { r with tag_code := tag, confidence_score := conf,
             processing_notes := notes, updated_at := now }
  else r

def newTagRow (t c : Int) (tag : Value) (conf : ℚ) (notes : String)
    (now : String) : TagRow :=
  { txId := t, companyId := c, tag_code := tag, confidence_score := conf,
    is_manual_override := false, processing_notes := notes,
    created_at := now, updated_at := now }

def update_or_create (t c : Int) (tag : Value) (conf : ℚ) (notes : String)
    (now : String) (db : Db) : Db :=
  if db.any (fun r => r.txId = t ∧ r.companyId = c) then
    db.map (upsertRow t c tag conf notes now)
  else db ++ [newTagRow t c tag conf notes now]

/-- Whether `AutoTagEngine.PROCESSORS` has an entry for this rule type
(rule_engine.py:378-384). -/
def processorKnown (rt : String) : Bool :=
  rt = "simple" || rt = "conditional" || rt = "script" || rt = "cel" ||
  rt = "ml"

/-- Dispatch to the processor registered for a known rule type.  The CEL
processor catches every exception internally (its result is total); the
`ml` placeholder returns `None`. -/
def runProcessor (RE : RegexSearch) (cel : CelEval) (now : String)
    (rt : String) (tx : Transaction) (md : List (String × Value))
    (cfg : List (String × Value)) : Except PyErr Value :=
  if rt = "simple" then SimpleRuleProcessor.process tx md cfg
  else if rt = "conditional" then ConditionalRuleProcessor.process RE tx md cfg
  else if rt = "script" || rt = "cel" then
    .ok (CelRuleProcessor.process cel now tx md cfg).1
  else .ok .vnone

/-- `AutoTagEngine._check_rule_conditions` (rule_engine.py:455-461): an
empty (falsy) guard passes; otherwise the guard is evaluated as a single
condition tree.  Exceptions from the evaluation propagate to the caller. -/
def check_rule_conditions (RE : RegexSearch) (tx : Transaction)
    (md : List (String × Value)) (conditions : Value) :
    Except PyErr Bool :=
  if !pyTruthy conditions then .ok true
  else evalCondition RE tx md conditions

/-- The failure note appended when a processor raises
(rule_engine.py:437). -/
def failNote (name : String) (e : PyErr) : String :=
  "Rule '" ++ name ++ "' failed: " ++
    (match e with
     | .attributeError m => m
     | .typeError m => m
     | .valueError m => m
     | .keyError m => m)

/-- The success note appended when a processor returns a truthy tag
(rule_engine.py:430). -/
def matchNote (name : String) (tag : Value) : String :=
  "Rule '" ++ name ++ "' matched: " ++ pyStr tag

/-- The literal 0.9 of the engine's early-exit test
(rule_engine.py:433), written as a normalized rational so that the
comparison is kernel-computable (`ratNineTenths_eq_div` below relates it to
9/10). -/
def ratNineTenths : ℚ := ⟨9, 10, by norm_num, by norm_num⟩

/-- The per-rule loop of `AutoTagEngine.tag_transaction`
(rule_engine.py:411-437), carrying `best_tag`, `best_confidence` and
`processing_notes`.  Rules with an unknown type are skipped; a guard that
raises propagates the exception (the guard check sits outside the `try`);
a processor that raises appends a failure note and continues; a truthy tag
gets stock confidence 1.0, replaces the best tag only when its confidence
is strictly greater, appends a success note, and breaks out of the loop
when the rule's priority is below 50 (its confidence 1.0 exceeds 0.9). -/
def tagLoop (RE : RegexSearch) (cel : CelEval) (now : String)
    (tx : Transaction) (md : List (String × Value)) :
    List TaggingRule → Value → ℚ → List String →
    Except PyErr (Value × ℚ × List String)
  | [], best, bc, notes => .ok (best, bc, notes)
  | r :: rest, best, bc, notes =>
    if processorKnown r.rule_type then
      match check_rule_conditions RE tx md r.conditions with
      | .error e => .error e
      | .ok false => tagLoop RE cel now tx md rest best bc notes
      | .ok true =>
        match runProcessor RE cel now r.rule_type tx md r.rule_config with
        | .error e =>
          tagLoop RE cel now tx md rest best bc (notes ++ [failNote r.name e])
        | .ok tag =>
          if pyTruthy tag then
            let confidence : ℚ := 1
            let best2 := if bc < confidence then tag else best
            let bc2 := if bc < confidence then confidence else bc
            let notes2 := notes ++ [matchNote r.name tag]
            if r.priority < 50 ∧ ratNineTenths < confidence then
              .ok (best2, bc2, notes2)
            else tagLoop RE cel now tx md rest best2 bc2 notes2
          else tagLoop RE cel now tx md rest best bc notes
    else tagLoop RE cel now tx md rest best bc notes

/-- Stable insertion of a rule in front of the first element that does not
have a strictly smaller priority (the inserted rule precedes the rules it
ties with, matching its earlier table position). -/
def insertByPriority (r : TaggingRule) : List TaggingRule → List TaggingRule
  | [] => [r]
  | x :: xs =>
    if x.priority < r.priority then x :: insertByPriority r xs
    else r :: x :: xs

/-- Stable ascending sort by priority. -/
def sortByPriority : List TaggingRule → List TaggingRule
  | [] => []
  | r :: rest => insertByPriority r (sortByPriority rest)

/-- `company.tagging_rules.filter(is_active=True).order_by('priority')`
(rule_engine.py:405): the active rules, stably sorted by ascending
priority (ties keep table order). -/
def activeSorted (rules : List TaggingRule) : List TaggingRule :=
  sortByPriority (rules.filter (fun r => r.is_active))

/-- `AutoTagEngine.tag_transaction` (rule_engine.py:386-453): resolve the
metadata (empty when the transaction has no `external_data`), run the rule
loop over the active rules in priority order, and if the best tag is
truthy upsert the `TransactionTag` row and return the tag; otherwise
return `None` and leave the table untouched. -/
def tag_transaction (RE : RegexSearch) (cel : CelEval) (now : String)
    (tx : Transaction) (companyId : Int) (companyRules : List TaggingRule)
    (db : Db) : Except PyErr (Value × Db) :=
  let md := tx.external_data.getD []
  match tagLoop RE cel now tx md (activeSorted companyRules) .vnone 0 [] with
  | .error e => .error e
  | .ok (best, bc, notes) =>
    if pyTruthy best then
      .ok (best, update_or_create tx.id companyId best bc
                   (pyJoin "\n" notes) now db)
    else .ok (.vnone, db)

/-- Specification-side characterization for the arbitration claim,
following the spec's words: the engine's chosen tag is "the tag returned by
the first rule (in priority ascending order) whose guard passes and whose
processor returns a non-empty tag".  Rules without a registered processor
have no processor result and are skipped, as are rules whose processor
raises; a raising guard has no defined outcome and is surfaced as the
exception. -/
def specFirstMatchTag (RE : RegexSearch) (cel : CelEval) (now : String)
    (tx : Transaction) (md : List (String × Value)) :
    List TaggingRule → Except PyErr Value
  | [] => .ok .vnone
  | r :: rest =>
    if processorKnown r.rule_type then
      match check_rule_conditions RE tx md r.conditions with
      | .error e => .error e
      | .ok false => specFirstMatchTag RE cel now tx md rest
      | .ok true =>
        match runProcessor RE cel now r.rule_type tx md r.rule_config with
        | .error _ => specFirstMatchTag RE cel now tx md rest
        | .ok tag =>
          if pyTruthy tag then .ok tag
          else specFirstMatchTag RE cel now tx md rest
    else specFirstMatchTag RE cel now tx md rest

/-- The type of the modelled CPython `compile(script, "<string>", "exec")`
syntax check used by script-rule validation (utils.py:39-42): `true` when
the text parses as Python. -/
def PySyntaxCheck : Type := String → Bool

/-- `validate_rule_config` (utils.py:6-48): `simple` needs a dict
`mappings`, `conditional` needs a list `conditions`, `script` needs a
string `script` in Python syntax, `ml` needs a `model_type`; every other
rule type (including `cel`) passes.  Failures raise `ValueError`
(modelled as `Except.error`); success returns `True`. -/
def validate_rule_config (pySyntaxOk : PySyntaxCheck) (rule_type : String)
    (rule_config : List (String × Value)) : Except PyErr Bool :=
  if rule_type = "simple" then
    match alookup "mappings" rule_config with
    | none => .error (.valueError "Simple rules must have mappings field")
    | some (.vdict _) => .ok true
    | some _ => .error (.valueError "mappings must be a dictionary")
  else if rule_type = "conditional" then
    match alookup "conditions" rule_config with
    | none => .error (.valueError "Conditional rules must have conditions field")
    | some (.vlist _) => .ok true
    | some _ => .error (.valueError "conditions must be a list")
  else if rule_type = "script" then
    match alookup "script" rule_config with
    | none => .error (.valueError "Script rules must have script field")
    | some (.vstr s) =>
      if pySyntaxOk s then .ok true
      else .error (.valueError "Invalid Python syntax in script")
    | some _ => .error (.valueError "script must be a string")
  else if rule_type = "ml" then
    match alookup "model_type" rule_config with
    | none => .error (.valueError "ML rules must have model_type field")
    | some _ => .ok true
  else .ok true

/-- One entry of the export envelope's `rules` array (utils.py:96-103). -/
structure RuleData where
  name : String
  rule_type : String
  priority : Int
  rule_config : List (String × Value)
  conditions : Value
  is_active : Bool

/-- The export envelope (utils.py:105-109).  `json.dumps`/`json.loads` of a
well-formed envelope are mutually inverse and are not modelled; the
envelope is carried structurally. -/
structure Envelope where
  company_code : String
  company_name : String
  rules : List RuleData

/-- The per-rule dict built by the export loop (utils.py:96-103). -/
def ruleToData (r : TaggingRule) : RuleData :=
  { name := r.name, rule_type := r.rule_type, priority := r.priority,
    rule_config := r.rule_config, conditions := r.conditions,
    is_active := r.is_active }

/-- `export_rules_to_json` for an existing company (utils.py:75-109): all
the company's rules — active or not — projected onto the six exported
fields, in table order. -/
def export_rules_to_json (company_code company_name : String)
    (rules : List TaggingRule) : Envelope :=
  { company_code := company_code
    company_name := company_name
    rules := rules.map ruleToData }

/-- The rule row written by the import upsert (utils.py:150-160):
`update_or_create(company, name, defaults={rule_type, priority,
rule_config, conditions, is_active})`. -/
def ruleOfData (rd : RuleData) : TaggingRule :=
  { name := rd.name, rule_type := rd.rule_type, priority := rd.priority,
    rule_config := rd.rule_config, conditions := rd.conditions,
    is_active := rd.is_active }

/-- Upsert of one imported rule into the company's rule table, keyed by
`name`. -/
def upsertRule (existing : List TaggingRule) (rd : RuleData) :
    List TaggingRule :=
  if existing.any (fun r => r.name = rd.name) then
    existing.map (fun r => if r.name = rd.name then ruleOfData rd else r)
  else existing ++ [ruleOfData rd]

/-- The per-rule loop of `import_rules_from_json` (utils.py:144-164) for a
resolved company: validate each incoming rule, upsert it on success and
count it, collect a per-rule error message on failure; the loop never
aborts.  Returns the final rule table, the `imported` count and the
`errors` list. -/
def importRulesLoop (pySyntaxOk : PySyntaxCheck) :
    List RuleData → List TaggingRule → Nat → List String →
    List TaggingRule × Nat × List String
  | [], existing, imported, errs => (existing, imported, errs)
  | rd :: rest, existing, imported, errs =>
    match validate_rule_config pySyntaxOk rd.rule_type rd.rule_config with
    | .ok _ =>
      importRulesLoop pySyntaxOk rest (upsertRule existing rd)
        (imported + 1) errs
    | .error e =>
      importRulesLoop pySyntaxOk rest existing imported
        (errs ++ ["Error importing rule '" ++ rd.name ++ "': " ++
          (match e with
           | .attributeError m => m
           | .typeError m => m
           | .valueError m => m
           | .keyError m => m)])

/-- `import_rules_from_json` after envelope-level checks succeeded (the
JSON parses, `company_code` is present and resolves to `existing`'s
company): process every rule of the envelope. -/
def import_rules_from_json (pySyntaxOk : PySyntaxCheck) (env : Envelope)
    (existing : List TaggingRule) : List TaggingRule × Nat × List String :=
  importRulesLoop pySyntaxOk env.rules existing 0 []

/-! Concrete fixtures used to exercise the embedding. -/

/-- A regex backend that finds no match (the regex operator is not under
test where this is used). -/
def sampleRE : RegexSearch := fun _ _ => .ok false

/-- A CEL backend evaluating every expression to the string "EVAL". -/
def sampleCel : CelEval := fun _ _ => .ok (.vstr "EVAL")

/-- A sample transaction (spec §8 scenario 1). -/
def sampleTx : Transaction :=
  { id := 1, product_code := "PROD_001", produce_rate := 10,
    ledger_type := "debit", source := "online", jurisdiction := "us",
    created_at := "2024-01-01T00:00:00",
    external_data := some [("customer_tier", .vstr "gold"),
                           ("amount", .vint 800)] }

/-- A transaction whose `product_code` is the empty string. -/
def sampleTxEmptyPC : Transaction :=
  { sampleTx with product_code := "" }

/-- Priority-10 simple rule mapping PROD_001 to HIGH (spec §8
scenario 1). -/
def ruleHigh : TaggingRule :=
  { name := "R1", rule_type := "simple", priority := 10,
    rule_config :=
      [("mappings", .vdict
        [("product_code", .vdict [("PROD_001", .vstr "HIGH")])])],
    conditions := .vdict [], is_active := true }

/-- Priority-100 simple rule mapping PROD_001 to LOW (spec §8
scenario 1). -/
def ruleLow : TaggingRule :=
  { name := "R2", rule_type := "simple", priority := 100,
    rule_config :=
      [("mappings", .vdict
        [("product_code", .vdict [("PROD_001", .vstr "LOW")])])],
    conditions := .vdict [], is_active := true }

/-- A rule whose guard dict lacks the `field` key, so guard evaluation
raises `AttributeError` (from `None.startswith`). -/
def badGuardRule : TaggingRule :=
  { name := "G", rule_type := "simple", priority := 100,
    rule_config := [("mappings", .vdict [])],
    conditions := .vdict [("operator", .vstr "equals"),
                          ("value", .vstr "x")],
    is_active := true }

/-- A simple rule whose `mappings` is not a dict, so its processor raises
`AttributeError` (from `.items()`). -/
def badConfigRule : TaggingRule :=
  { name := "B", rule_type := "simple", priority := 100,
    rule_config := [("mappings", .vint 3)],
    conditions := .vdict [], is_active := true }

/-- A conditional rule with an empty `rule_config` (legal in the table,
rejected by import validation). -/
def ruleCondEmptyCfg : TaggingRule :=
  { name := "RC", rule_type := "conditional", priority := 100,
    rule_config := [], conditions := .vdict [], is_active := true }

/-- A manually-overridden tag row for `sampleTx` under company 7. -/
def manualRow : TagRow :=
  { txId := 1, companyId := 7, tag_code := .vstr "MANUAL",
    confidence_score := 1, is_manual_override := true,
    processing_notes := "set by operator", created_at := "B",
    updated_at := "B" }

/-- A priority-10 CEL rule with a plain expression config. -/
def celRuleHigh : TaggingRule :=
  { name := "C1", rule_type := "cel", priority := 10,
    rule_config := [("expression", .vstr "'HI' + ''")],
    conditions := .vdict [], is_active := true }

/-- Number of `transaction_tags` rows for one (transaction, company)
key. -/
def countKey (t c : Int) (db : Db) : Nat :=
  (db.filter (fun r => decide (r.txId = t ∧ r.companyId = c))).length

/-! Helper lemmas. -/

theorem ratNineTenths_eq_div : ratNineTenths = 9 / 10 := by
  show (⟨9, 10, by norm_num, by norm_num⟩ : ℚ) = 9 / 10
  rw [Rat.mk'_eq_divInt, Rat.divInt_eq_div]
  norm_num

theorem alookup_mem {α : Type} {k : String} {v : α} :
    ∀ {l : List (String × α)}, alookup k l = some v → (k, v) ∈ l := by
  intro l
  induction l with
  | nil => intro h; simp [alookup] at h
  | cons e r ih =>
    intro h
    obtain ⟨k2, w⟩ := e
    by_cases hk : k = k2
    · subst hk
      simp [alookup] at h
      simp [h]
    · simp [alookup, hk] at h
      simp [ih h]

theorem simpleProcess_mappings (tx : Transaction) (md : List (String × Value))
    (m : List (String × Value)) :
    SimpleRuleProcessor.process tx md [("mappings", .vdict m)] =
      simpleProcessMappings tx md m := by
  simp [SimpleRuleProcessor.process, getd, alookup]

theorem simpleTxLoop_filter (tx : Transaction) (m : List (String × Value)) :
    simpleTxLoop tx m =
      simpleTxLoop tx
        (m.filter (fun e => decide (e.1 ∈ transactionFields))) := by
  induction m with
  | nil => rfl
  | cons e rest ih =>
    obtain ⟨f, fm⟩ := e
    by_cases hf : f ∈ transactionFields
    · simp [simpleTxLoop, hf, List.filter_cons, ih]
    · simp [simpleTxLoop, hf, List.filter_cons, ih]

theorem simpleMetaLoop_filter (md : List (String × Value))
    (m : List (String × Value)) :
    simpleMetaLoop md m =
      simpleMetaLoop md
        (m.filter (fun e => !decide (e.1 ∈ transactionFields))) := by
  induction m with
  | nil => rfl
  | cons e rest ih =>
    obtain ⟨f, fm⟩ := e
    by_cases hf : f ∈ transactionFields
    · simp [simpleMetaLoop, hf, List.filter_cons, ih]
    · simp [simpleMetaLoop, hf, List.filter_cons, ih]

/-- C9: In the simple processor, for every mappings configuration and every
transaction/metadata pair, all mappings on the recognized transaction
fields (`product_code`, `source`, `jurisdiction`, `ledger_type`) are
examined before any metadata-field mapping, regardless of the order in
which the fields appear in the configuration — the result is unchanged by
regrouping the configuration into its transaction-field entries followed
by its other entries — and within each partition the first field whose
(exact, case-sensitive, untrimmed) value hits its mapping wins. -/
theorem C9_simple_partition_order (tx : Transaction)
    (md : List (String × Value)) (m : List (String × Value)) :
    SimpleRuleProcessor.process tx md [("mappings", .vdict m)] =
      SimpleRuleProcessor.process tx md
        [("mappings", .vdict
          (m.filter (fun e => decide (e.1 ∈ transactionFields)) ++
           m.filter (fun e => !decide (e.1 ∈ transactionFields))))] ∧
    (∀ f fm tag rest, f ∈ transactionFields → txFieldStr tx f ≠ "" →
      alookup (txFieldStr tx f) fm = some tag →
      simpleTxLoop tx ((f, .vdict fm) :: rest) = .ok (some tag)) ∧
    (∀ f fm v tag rest, f ∉ transactionFields → alookup f md = some v →
      alookup (pyStr v) fm = some tag →
      simpleMetaLoop md ((f, .vdict fm) :: rest) = .ok (some tag)) := by
  refine ⟨?_, ?_, ?_⟩
  · rw [simpleProcess_mappings, simpleProcess_mappings]
    unfold simpleProcessMappings
    have htx : simpleTxLoop tx
        (m.filter (fun e => decide (e.1 ∈ transactionFields)) ++
         m.filter (fun e => !decide (e.1 ∈ transactionFields))) =
        simpleTxLoop tx m := by
      rw [simpleTxLoop_filter tx (_ ++ _), simpleTxLoop_filter tx m]
      simp [List.filter_append, List.filter_filter]
    have hmd : simpleMetaLoop md
        (m.filter (fun e => decide (e.1 ∈ transactionFields)) ++
         m.filter (fun e => !decide (e.1 ∈ transactionFields))) =
        simpleMetaLoop md m := by
      rw [simpleMetaLoop_filter md (_ ++ _), simpleMetaLoop_filter md m]
      simp [List.filter_append, List.filter_filter]
    rw [htx, hmd]
  · intro f fm tag rest hf hv hm
    have hmem : (fm.any (fun kv => pyEq (.vstr (txFieldStr tx f)) (.vstr kv.1))) = true := by
      simp [pyEq]
      exact ⟨tag, alookup_mem hm⟩
    simp [simpleTxLoop, hf, hv, pyMem, pySubscript, hmem, hm]
  · intro f fm v tag rest hf hmd2 hm
    have hmem : (fm.any (fun kv => pyEq (.vstr (pyStr v)) (.vstr kv.1))) = true := by
      simp [pyEq]
      exact ⟨tag, alookup_mem hm⟩
    simp [simpleMetaLoop, hf, hmd2, pyMem, pySubscript, hmem, hm]

/-- Witness for C9 at a concrete configuration: a metadata mapping listed
first is still examined after the transaction-field mapping, and the first
matching field in each partition yields its tag. -/
theorem C9_witness :
    SimpleRuleProcessor.process sampleTx [("tier", .vstr "gold")]
        [("mappings", .vdict
          [("tier", .vdict [("gold", .vstr "META")]),
           ("product_code", .vdict [("PROD_001", .vstr "TX")])])] =
      SimpleRuleProcessor.process sampleTx [("tier", .vstr "gold")]
        [("mappings", .vdict
          [("product_code", .vdict [("PROD_001", .vstr "TX")]),
           ("tier", .vdict [("gold", .vstr "META")])])] ∧
    simpleTxLoop sampleTx
        [("product_code", .vdict [("PROD_001", .vstr "TX")])] =
      .ok (some (.vstr "TX")) ∧
    simpleMetaLoop [("tier", .vstr "gold")]
        [("tier", .vdict [("gold", .vstr "META")])] =
      .ok (some (.vstr "META")) := by
  refine ⟨?_, ?_, ?_⟩
  · have h := (C9_simple_partition_order sampleTx [("tier", .vstr "gold")]
      [("tier", .vdict [("gold", .vstr "META")]),
       ("product_code", .vdict [("PROD_001", .vstr "TX")])]).1
    simpa using h
  · exact (C9_simple_partition_order sampleTx [("tier", .vstr "gold")] []).2.1
      "product_code" [("PROD_001", .vstr "TX")] (.vstr "TX") []
      (by decide) (by decide) rfl
  · exact (C9_simple_partition_order sampleTx [("tier", .vstr "gold")] []).2.2
      "tier" [("gold", .vstr "META")] (.vstr "gold") (.vstr "META") []
      (by decide) rfl rfl

/-- C10: In the simple processor, a recognized transaction field whose
value is the empty string (the only falsy value a CharField can hold) never
matches any mapping on that field — even one whose keys contain the empty
string — and the processor behaves exactly as if that mapping entry were
absent. -/
theorem C10_falsy_transaction_value_skipped (tx : Transaction)
    (md : List (String × Value)) (f : String) (fm : Value)
    (rest : List (String × Value)) (hf : f ∈ transactionFields)
    (hv : txFieldStr tx f = "") :
    SimpleRuleProcessor.process tx md [("mappings", .vdict ((f, fm) :: rest))] =
      SimpleRuleProcessor.process tx md [("mappings", .vdict rest)] := by
  rw [simpleProcess_mappings, simpleProcess_mappings]
  unfold simpleProcessMappings
  have h1 : simpleTxLoop tx ((f, fm) :: rest) = simpleTxLoop tx rest := by
    simp [simpleTxLoop, hf, hv]
  have h2 : simpleMetaLoop md ((f, fm) :: rest) = simpleMetaLoop md rest := by
    simp [simpleMetaLoop, hf]
  rw [h1, h2]

/-- Witness for C10: an empty `product_code` does not match a mapping whose
key is the empty string. -/
theorem C10_witness :
    SimpleRuleProcessor.process sampleTxEmptyPC []
        [("mappings", .vdict
          [("product_code", .vdict [("", .vstr "EMPTY_TAG")])])] =
      SimpleRuleProcessor.process sampleTxEmptyPC []
        [("mappings", .vdict [])] :=
  C10_falsy_transaction_value_skipped sampleTxEmptyPC [] "product_code"
    (.vdict [("", .vstr "EMPTY_TAG")]) [] (by decide) rfl

theorem pyEq_vnone_left (v : Value) (hv : v ≠ .vnone) :
    pyEq .vnone v = false := by
  cases v with
  | vnone => exact absurd rfl hv
  | vbool b => simp [pyEq, pyNum]
  | vint n => simp [pyEq, pyNum]
  | vdec q => simp [pyEq, pyNum]
  | vstr s => simp [pyEq, pyNum]
  | vlist l => simp [pyEq, pyNum]
  | vdict d => simp [pyEq, pyNum]

/-- C3 counterexample: the claim says a missing field "yields false for
greater_than and less_than, and stringifies to the empty string for the
contains and regex operators".  On the code, a field path absent from the
metadata yields Python `None`; `greater_than` against the value "Apple"
then returns TRUE (the float coercion of `None` fails and the string
fallback compares "None" > "Apple"), and `contains` against the value
"None" returns TRUE (the missing field stringifies to "None", not ""). -/
theorem C3_counterexample :
    get_field_value sampleTx [] (.vstr "metadata.missing") = .ok .vnone ∧
    compare_values sampleRE .vnone (.vstr "greater_than") (.vstr "Apple") =
      .ok true ∧
    compare_values sampleRE .vnone (.vstr "contains") (.vstr "None") =
      .ok true := by
  refine ⟨rfl, ?_, ?_⟩
  · simp [compare_values, pyEq, pyFloat, pyStr, pyRepr, strLt]
    decide
  · simp [compare_values, pyEq, pyStr, pyRepr, pySubstr, listHasSub,
          listStarts]

/-- C3 as amended: a missing field (a `metadata.` path absent from the
metadata map, or an unknown transaction attribute) yields `None`, which
compares unequal to any non-absent value under `equals`; `greater_than` and
`less_than` fall back to lexicographic comparison of the stringified forms,
where `None` stringifies to the string "None" (they are therefore not
constantly false); and for `contains` and `regex` the missing value
stringifies to "None", not to the empty string. -/
theorem C3_missing_field_semantics (RE : RegexSearch) (tx : Transaction)
    (md : List (String × Value)) (f : String) (v : Value)
    (hmeta : strStarts "metadata." f = true)
    (habsent : alookup (strDrop f 9) md = none) :
    get_field_value tx md (.vstr f) = .ok .vnone ∧
    (∀ g, strStarts "metadata." g = false →
      g ∉ ["product_code", "produce_rate", "ledger_type", "source",
           "jurisdiction", "created_at", "id"] →
      get_field_value tx md (.vstr g) = .ok .vnone) ∧
    (v ≠ .vnone → compare_values RE .vnone (.vstr "equals") v = .ok false) ∧
    compare_values RE .vnone (.vstr "greater_than") v =
      .ok (strLt (pyStr v) "None") ∧
    compare_values RE .vnone (.vstr "less_than") v =
      .ok (strLt "None" (pyStr v)) ∧
    compare_values RE .vnone (.vstr "contains") v =
      .ok (pySubstr (pyStr v) "None") ∧
    compare_values RE .vnone (.vstr "regex") v = RE (pyStr v) "None" := by
  refine ⟨?_, ?_, ?_, ?_, ?_, ?_, ?_⟩
  · simp [get_field_value, hmeta, habsent]
  · intro g hg hg2
    simp only [List.mem_cons, List.mem_singleton] at hg2
    push_neg at hg2
    obtain ⟨h1, h2, h3, h4, h5, h6, h7⟩ := hg2
    simp [get_field_value, hg, txAttr, h1, h2, h3, h4, h5, h6, h7]
  · intro hv
    cases v with
    | vnone => exact absurd rfl hv
    | vbool b => simp [compare_values, pyEq, pyNum]
    | vint n => simp [compare_values, pyEq, pyNum]
    | vdec q => simp [compare_values, pyEq, pyNum]
    | vstr s2 => simp [compare_values, pyEq, pyNum]
    | vlist l => simp [compare_values, pyEq, pyNum]
    | vdict d => simp [compare_values, pyEq, pyNum]
  · simp [compare_values, pyEq, pyFloat, pyStr, pyRepr]
  · simp [compare_values, pyEq, pyFloat, pyStr, pyRepr]
  · simp [compare_values, pyEq, pyStr, pyRepr]
  · simp [compare_values, pyEq, pyStr, pyRepr]

/-- Witness for C3 (amended) at a concrete missing metadata field and the
comparison value "Apple". -/
theorem C3_witness :
    get_field_value sampleTx [] (.vstr "metadata.missing") = .ok .vnone ∧
    compare_values sampleRE .vnone (.vstr "equals") (.vstr "Apple") =
      .ok false ∧
    compare_values sampleRE .vnone (.vstr "greater_than") (.vstr "Apple") =
      .ok (strLt "Apple" "None") := by
  have h := C3_missing_field_semantics sampleRE sampleTx []
    "metadata.missing" (.vstr "Apple") rfl rfl
  exact ⟨h.1, h.2.2.1 (by simp), h.2.2.2.1⟩

/-- C6 counterexample: the claim says that whenever `script` is present and
contains neither "def " nor "return", the script text is evaluated as a
single CEL expression.  On the code an EMPTY script (which contains neither
keyword) is refused: the processor logs a `legacy_python_script` security
event and returns `None` without evaluating anything — here the evaluation
path would instead have produced no security event. -/
theorem C6_counterexample :
    CelRuleProcessor.process sampleCel "T" sampleTx []
        [("script", .vstr ""), ("default_tag", .vstr "D")] =
      (.vnone, [⟨"legacy_python_script", ""⟩]) ∧
    pySubstr "def " "" = false ∧ pySubstr "return" "" = false := by
  refine ⟨rfl, rfl, rfl⟩

/-- C6 as amended: in the CEL processor, when neither an `expression` nor a
`conditions` key is present (those modes take precedence over the legacy
alias) and `script` holds a string s: if s is empty or contains "def " or
"return", the processor returns none without invoking the CEL evaluator
(the result is the same for every evaluator) and emits a single
`legacy_python_script` security event carrying the first 100 characters of
the script; otherwise s is evaluated as a single CEL expression under a
config holding only that expression (so the rule's `default_tag` does not
apply on the legacy path). -/
theorem C6_legacy_script_refusal (cel : CelEval) (now : String)
    (tx : Transaction) (md : List (String × Value))
    (cfg : List (String × Value)) (s : String)
    (hexp : alookup "expression" cfg = none)
    (hcond : alookup "conditions" cfg = none)
    (hs : alookup "script" cfg = some (.vstr s)) :
    (s = "" ∨ pySubstr "def " s = true ∨ pySubstr "return" s = true →
      CelRuleProcessor.process cel now tx md cfg =
        (.vnone, [⟨"legacy_python_script", strTake s 100⟩])) ∧
    (s ≠ "" → pySubstr "def " s = false → pySubstr "return" s = false →
      CelRuleProcessor.process cel now tx md cfg =
        evaluate_single_expression cel (buildCelContext tx md now)
          [("expression", .vstr s)]) := by
  constructor
  · intro h
    rcases h with h | h | h <;>
      simp [CelRuleProcessor.process, hexp, hcond, hs, h]
  · intro h1 h2 h3
    simp [CelRuleProcessor.process, hexp, hcond, hs, h1, h2, h3]

/-- Witness for C6 (amended): a script containing "def " is refused with a
security event, independent of the evaluator; a plain expression script is
evaluated. -/
theorem C6_witness :
    CelRuleProcessor.process sampleCel "T" sampleTx []
        [("script", .vstr "def get_tag(t, m): return 1")] =
      (.vnone, [⟨"legacy_python_script", "def get_tag(t, m): return 1"⟩]) ∧
    CelRuleProcessor.process sampleCel "T" sampleTx []
        [("script", .vstr "1 + 1")] =
      evaluate_single_expression sampleCel
        (buildCelContext sampleTx [] "T") [("expression", .vstr "1 + 1")] := by
  constructor
  · exact (C6_legacy_script_refusal sampleCel "T" sampleTx []
      [("script", .vstr "def get_tag(t, m): return 1")]
      "def get_tag(t, m): return 1" rfl rfl rfl).1
      (Or.inr (Or.inl (by decide)))
  · exact (C6_legacy_script_refusal sampleCel "T" sampleTx []
      [("script", .vstr "1 + 1")] "1 + 1" rfl rfl rfl).2
      (by decide) (by decide) (by decide)

/-- C2 counterexample: the claim says a rule whose GUARD evaluation raises
never causes tag_transaction to fail.  On the code the guard check
(`_check_rule_conditions`) sits outside the `try` that protects processor
invocation, so a guard whose dict lacks the `field` key (the `.get` default
`None` has no `.startswith`) raises `AttributeError` straight out of
`tag_transaction`. -/
theorem C2_counterexample :
    tag_transaction sampleRE sampleCel "T" sampleTx 1 [badGuardRule] [] =
      .error (.attributeError "object has no attribute startswith") := by
  simp [tag_transaction, activeSorted, sortByPriority, insertByPriority,
        tagLoop, check_rule_conditions, processorKnown, badGuardRule,
        pyTruthy, evalCondition, getd, alookup, get_field_value,
        compare_values, sampleTx]

/-- The rule loop only fails through a raising guard: when no active
rule's guard evaluation raises, the loop always returns `ok` (processor
errors are caught and noted, everything else just iterates). -/
theorem tagLoop_ok_of_guards_ok (RE : RegexSearch) (cel : CelEval)
    (now : String) (tx : Transaction) (md : List (String × Value)) :
    ∀ (rules : List TaggingRule),
    (∀ r ∈ rules, ∀ e, check_rule_conditions RE tx md r.conditions ≠
      .error e) →
    ∀ best bc notes,
    (tagLoop RE cel now tx md rules best bc notes).isOk = true := by
  intro rules
  induction rules with
  | nil => intro hg best bc notes; rfl
  | cons r rest ih =>
    intro hg best bc notes
    have hgt : ∀ r2 ∈ rest, ∀ e,
        check_rule_conditions RE tx md r2.conditions ≠ .error e :=
      fun r2 hr2 e => hg r2 (List.mem_cons_of_mem r hr2) e
    simp only [tagLoop]
    by_cases hk : processorKnown r.rule_type = true
    · rw [if_pos hk]
      cases hgc : check_rule_conditions RE tx md r.conditions with
      | error e => exact absurd hgc (hg r (List.mem_cons_self r rest) e)
      | ok b =>
        cases b
        · exact ih hgt best bc notes
        · simp only []
          cases hpc : runProcessor RE cel now r.rule_type tx md
              r.rule_config with
          | error e => exact ih hgt best bc (notes ++ [failNote r.name e])
          | ok tag =>
            simp only []
            by_cases ht : pyTruthy tag = true
            · rw [if_pos ht]
              by_cases hbr : r.priority < 50 ∧ ratNineTenths < 1
              · rw [if_pos hbr]; rfl
              · rw [if_neg hbr]; exact ih hgt _ _ _
            · rw [if_neg ht]; exact ih hgt best bc notes
    · rw [if_neg hk]; exact ih hgt best bc notes

/-- C2 as amended: a rule whose PROCESSOR invocation raises never causes
tag_transaction to fail.  First conjunct, the loop step: the engine
appends the failure note and continues with the next rule, leaving the
running best tag, confidence and earlier notes untouched.  Second
conjunct, the call level: as long as no active rule's GUARD evaluation
raises, tag_transaction returns `ok` — processor errors alone can never
fail it.  The guard proviso is forced: the guard check sits outside the
try block, so a raising guard propagates out of tag_transaction, as the
counterexample shows. -/
theorem C2_processor_error_contained (RE : RegexSearch) (cel : CelEval)
    (now : String) (tx : Transaction) (cid : Int)
    (rules : List TaggingRule) (db : Db) :
    (∀ (md : List (String × Value)) (r : TaggingRule)
      (rest : List TaggingRule) (best : Value) (bc : ℚ)
      (notes : List String) (e : PyErr),
      processorKnown r.rule_type = true →
      check_rule_conditions RE tx md r.conditions = .ok true →
      runProcessor RE cel now r.rule_type tx md r.rule_config = .error e →
      tagLoop RE cel now tx md (r :: rest) best bc notes =
        tagLoop RE cel now tx md rest best bc
          (notes ++ [failNote r.name e])) ∧
    ((∀ r ∈ activeSorted rules, ∀ e,
        check_rule_conditions RE tx (tx.external_data.getD [])
          r.conditions ≠ .error e) →
      (tag_transaction RE cel now tx cid rules db).isOk = true) := by
  constructor
  · intro md r rest best bc notes e hk hg hp
    simp [tagLoop, hk, hg, hp]
  · intro hgd
    simp only [tag_transaction]
    have hok := tagLoop_ok_of_guards_ok RE cel now tx
      (tx.external_data.getD []) (activeSorted rules) hgd .vnone 0 []
    cases hl : tagLoop RE cel now tx (tx.external_data.getD [])
        (activeSorted rules) .vnone 0 [] with
    | error e => rw [hl] at hok; simp [Except.isOk, Except.toBool] at hok
    | ok t =>
      obtain ⟨best, bc, notes⟩ := t
      simp only []
      by_cases hb : pyTruthy best = true
      · rw [if_pos hb]; rfl
      · rw [if_neg hb]; rfl

/-- Witness for C2 (amended): a simple rule whose `mappings` is not a dict
raises inside its processor; the loop records the failure note and
continues, and the whole tag_transaction call still succeeds. -/
theorem C2_witness :
    tagLoop sampleRE sampleCel "T" sampleTx [] [badConfigRule] .vnone 0 [] =
      tagLoop sampleRE sampleCel "T" sampleTx [] [] .vnone 0
        [failNote "B" (.attributeError "object has no attribute items")] ∧
    (tag_transaction sampleRE sampleCel "T" sampleTx 1 [badConfigRule]
      []).isOk = true := by
  have h := C2_processor_error_contained sampleRE sampleCel "T" sampleTx 1
    [badConfigRule] []
  refine ⟨h.1 [] badConfigRule [] .vnone 0 []
    (.attributeError "object has no attribute items") rfl rfl rfl, h.2 ?_⟩
  intro r hr e
  have hr2 : r = badConfigRule := by
    simpa [activeSorted, sortByPriority, insertByPriority] using hr
  subst hr2
  rw [show check_rule_conditions sampleRE sampleTx
      (sampleTx.external_data.getD []) badConfigRule.conditions =
      .ok true from rfl]
  simp

/-- C5: In the engine's rule loop, once a rule with priority < 50 matches
(its guard passes and its processor returns a truthy tag, whose stock
confidence 1.0 exceeds 0.9), the loop stops: no later rule is consulted —
the loop's outcome is identical for every continuation of the rule list
beyond that rule, so no later guard is checked and no later processor is
invoked. -/
theorem C5_early_exit (RE : RegexSearch) (cel : CelEval) (now : String)
    (tx : Transaction) (md : List (String × Value)) (pre : List TaggingRule)
    (r : TaggingRule) (rest rest2 : List TaggingRule) (tag : Value)
    (hk : processorKnown r.rule_type = true)
    (hg : check_rule_conditions RE tx md r.conditions = .ok true)
    (hp : runProcessor RE cel now r.rule_type tx md r.rule_config = .ok tag)
    (ht : pyTruthy tag = true) (hpr : r.priority < 50) :
    ∀ best bc notes,
    tagLoop RE cel now tx md (pre ++ r :: rest) best bc notes =
      tagLoop RE cel now tx md (pre ++ r :: rest2) best bc notes := by
  induction pre with
  | nil =>
    intro best bc notes
    simp only [List.nil_append, tagLoop, hk, hg, hp, ht]
    have hb : r.priority < 50 ∧ ratNineTenths < 1 := ⟨hpr, by decide⟩
    simp [hb]
  | cons h t ih =>
    intro best bc notes
    simp only [List.cons_append, tagLoop]
    by_cases hk2 : processorKnown h.rule_type = true
    · rw [if_pos hk2, if_pos hk2]
      cases hgc : check_rule_conditions RE tx md h.conditions with
      | error e => rfl
      | ok b =>
        cases b
        · exact ih best bc notes
        · simp only []
          cases hpc : runProcessor RE cel now h.rule_type tx md h.rule_config with
          | error e => exact ih best bc (notes ++ [failNote h.name e])
          | ok tag2 =>
            simp only []
            by_cases ht2 : pyTruthy tag2 = true
            · rw [if_pos ht2, if_pos ht2]
              by_cases hbr : h.priority < 50 ∧ ratNineTenths < 1
              · rw [if_pos hbr, if_pos hbr]
              · rw [if_neg hbr, if_neg hbr]
                exact ih _ _ _
            · rw [if_neg ht2, if_neg ht2]
              exact ih best bc notes
    · rw [if_neg hk2, if_neg hk2]
      exact ih best bc notes

/-- Witness for C5: a priority-10 CEL rule that matches makes the loop
independent of the rules behind it. -/
theorem C5_witness :
    tagLoop sampleRE sampleCel "T" sampleTx [] [celRuleHigh, ruleLow]
        .vnone 0 [] =
      tagLoop sampleRE sampleCel "T" sampleTx [] [celRuleHigh] .vnone 0 [] :=
  C5_early_exit sampleRE sampleCel "T" sampleTx [] [] celRuleHigh [ruleLow]
    [] (.vstr "EVAL") rfl rfl rfl rfl (by decide) .vnone 0 []

/-- Once the loop's best tag is truthy (its confidence is the stock 1.0),
no later rule can replace it: later matches also carry confidence 1.0 and
the engine only replaces on a strict increase. -/
theorem tagLoop_truthy_keeps (RE : RegexSearch) (cel : CelEval) (now : String)
    (tx : Transaction) (md : List (String × Value)) (best : Value)
    (hb : pyTruthy best = true) :
    ∀ (rules : List TaggingRule) (notes : List String) (v : Value)
      (bc2 : ℚ) (notes2 : List String),
      tagLoop RE cel now tx md rules best 1 notes = .ok (v, bc2, notes2) →
      v = best := by
  intro rules
  induction rules with
  | nil =>
    intro notes v bc2 notes2 h
    simp only [tagLoop, Except.ok.injEq, Prod.mk.injEq] at h
    exact h.1.symm
  | cons r rest ih =>
    intro notes v bc2 notes2 h
    simp only [tagLoop] at h
    by_cases hk : processorKnown r.rule_type = true
    · rw [if_pos hk] at h
      cases hgc : check_rule_conditions RE tx md r.conditions with
      | error e => rw [hgc] at h; simp at h
      | ok b =>
        rw [hgc] at h
        cases b
        · exact ih notes v bc2 notes2 h
        · simp only [] at h
          cases hpc : runProcessor RE cel now r.rule_type tx md r.rule_config with
          | error e =>
            rw [hpc] at h
            exact ih _ v bc2 notes2 h
          | ok tag2 =>
            rw [hpc] at h
            simp only [] at h
            by_cases ht2 : pyTruthy tag2 = true
            · rw [if_pos ht2] at h
              rw [if_neg (show ¬((1 : ℚ) < 1) by norm_num)] at h
              by_cases hbr : r.priority < 50 ∧ ratNineTenths < 1
              · rw [if_pos hbr] at h
                simp only [Except.ok.injEq, Prod.mk.injEq] at h
                exact h.1.symm
              · rw [if_neg hbr] at h
                exact ih _ v bc2 notes2 h
            · rw [if_neg ht2] at h
              exact ih notes v bc2 notes2 h
    · rw [if_neg hk] at h
      exact ih notes v bc2 notes2 h

/-- The rule loop started from the initial state returns the tag of the
first rule whose guard passes and whose processor yields a truthy tag (and
a best tag that is `None` whenever it is falsy). -/
theorem tagLoop_first_match (RE : RegexSearch) (cel : CelEval) (now : String)
    (tx : Transaction) (md : List (String × Value)) :
    ∀ (rules : List TaggingRule) (notes : List String) (v : Value)
      (bc2 : ℚ) (notes2 : List String),
      tagLoop RE cel now tx md rules .vnone 0 notes = .ok (v, bc2, notes2) →
      specFirstMatchTag RE cel now tx md rules = .ok v ∧
        (v = .vnone ∨ pyTruthy v = true) := by
  intro rules
  induction rules with
  | nil =>
    intro notes v bc2 notes2 h
    simp only [tagLoop, Except.ok.injEq, Prod.mk.injEq] at h
    exact ⟨by simp [specFirstMatchTag, h.1], Or.inl h.1.symm⟩
  | cons r rest ih =>
    intro notes v bc2 notes2 h
    simp only [tagLoop] at h
    simp only [specFirstMatchTag]
    by_cases hk : processorKnown r.rule_type = true
    · rw [if_pos hk] at h
      rw [if_pos hk]
      cases hgc : check_rule_conditions RE tx md r.conditions with
      | error e => rw [hgc] at h; simp at h
      | ok b =>
        rw [hgc] at h
        cases b
        · exact ih notes v bc2 notes2 h
        · simp only [] at h ⊢
          cases hpc : runProcessor RE cel now r.rule_type tx md r.rule_config with
          | error e =>
            rw [hpc] at h
            exact ih _ v bc2 notes2 h
          | ok tag2 =>
            rw [hpc] at h
            simp only [] at h ⊢
            by_cases ht2 : pyTruthy tag2 = true
            · rw [if_pos ht2] at h
              rw [if_pos ht2]
              rw [if_pos (show (0 : ℚ) < 1 by norm_num)] at h
              by_cases hbr : r.priority < 50 ∧ ratNineTenths < 1
              · rw [if_pos hbr] at h
                simp only [Except.ok.injEq, Prod.mk.injEq] at h
                exact ⟨by rw [h.1], Or.inr (h.1 ▸ ht2)⟩
              · rw [if_neg hbr] at h
                have hv := tagLoop_truthy_keeps RE cel now tx md tag2 ht2
                  rest _ v bc2 notes2 h
                exact ⟨by rw [hv], Or.inr (hv ▸ ht2)⟩
            · rw [if_neg ht2] at h
              rw [if_neg ht2]
              exact ih notes v bc2 notes2 h
    · rw [if_neg hk] at h
      rw [if_neg hk]
      exact ih notes v bc2 notes2 h

/-- C1: for every transaction, company and rule set, when tag_transaction
returns a tag, that tag equals the tag of the first active rule — in
ascending priority order, ties in table order — whose guard passes and
whose processor returns a truthy tag (unknown rule types and raising
processors are skipped): with the stock confidence 1.0, later matching
rules never replace the first match. -/
theorem C1_engine_first_match (RE : RegexSearch) (cel : CelEval) (now : String)
    (tx : Transaction) (cid : Int) (rules : List TaggingRule) (db : Db)
    (v : Value) (db2 : Db)
    (h : tag_transaction RE cel now tx cid rules db = .ok (v, db2)) :
    specFirstMatchTag RE cel now tx (tx.external_data.getD [])
      (activeSorted rules) = .ok v := by
  simp only [tag_transaction] at h
  cases hl : tagLoop RE cel now tx (tx.external_data.getD [])
      (activeSorted rules) .vnone 0 [] with
  | error e => rw [hl] at h; simp at h
  | ok t =>
    obtain ⟨best, bc, notes⟩ := t
    rw [hl] at h
    simp only [] at h
    have hs := tagLoop_first_match RE cel now tx (tx.external_data.getD [])
      (activeSorted rules) [] best bc notes hl
    by_cases hb : pyTruthy best = true
    · rw [if_pos hb] at h
      simp only [Except.ok.injEq, Prod.mk.injEq] at h
      rw [← h.1]
      exact hs.1
    · rw [if_neg hb] at h
      simp only [Except.ok.injEq, Prod.mk.injEq] at h
      rcases hs.2 with hbn | hbt
      · rw [← h.1, ← hbn]
        exact hs.1
      · exact absurd hbt hb

/-- Witness for C1: the engine tags with the priority-10 CEL rule and the
specification-side first-match scan agrees. -/
theorem C1_witness :
    specFirstMatchTag sampleRE sampleCel "T" sampleTx
        (sampleTx.external_data.getD [])
        (activeSorted [celRuleHigh, ruleLow]) = .ok (.vstr "EVAL") :=
  C1_engine_first_match sampleRE sampleCel "T" sampleTx 7
    [celRuleHigh, ruleLow] [] (.vstr "EVAL")
    [{ txId := 1, companyId := 7, tag_code := .vstr "EVAL",
       confidence_score := 1, is_manual_override := false,
       processing_notes := "Rule 'C1' matched: EVAL", created_at := "T",
       updated_at := "T" }] rfl

/-- C4 counterexample: the claim says a TransactionTag row with
`is_manual_override = true` is never overwritten by tag_transaction.  On
the code, the engine's `update_or_create` never consults
`is_manual_override`: running the engine over a matching rule replaces the
manual row's `tag_code` (MANUAL becomes the engine's tag) along with its
confidence and notes. -/
theorem C4_counterexample :
    tag_transaction sampleRE sampleCel "T" sampleTx 7 [celRuleHigh]
        [manualRow] =
      .ok (.vstr "EVAL",
        [{ manualRow with
             tag_code := .vstr "EVAL", confidence_score := 1,
             processing_notes := "Rule 'C1' matched: EVAL",
             updated_at := "T" }]) ∧
    manualRow.tag_code = .vstr "MANUAL" ∧
    manualRow.is_manual_override = true ∧
    (Value.vstr "MANUAL") ≠ (.vstr "EVAL") := by
  refine ⟨rfl, rfl, rfl, ?_⟩
  intro hx
  injection hx with hs
  exact absurd hs (by decide)

/-- C4 as amended: the engine does not consult `is_manual_override`.
Whenever tag_transaction returns a (truthy) tag for a (transaction,
company) pair that already has a row — manually overridden or not — the
upsert rewrites that row's `tag_code` (and confidence and notes) to the
engine's choice, while the keys and the `is_manual_override` flag itself
are preserved.  A manual row survives untouched only when no rule produces
a tag. -/
theorem C4_manual_override_overwritten (RE : RegexSearch) (cel : CelEval)
    (now : String) (tx : Transaction) (cid : Int)
    (rules : List TaggingRule) (db : Db) (v : Value) (db2 : Db)
    (row : TagRow)
    (h : tag_transaction RE cel now tx cid rules db = .ok (v, db2))
    (ht : pyTruthy v = true)
    (hrow : row ∈ db) (hk1 : row.txId = tx.id) (hk2 : row.companyId = cid) :
    db2.map (fun r => (r.txId, r.companyId, r.is_manual_override)) =
      db.map (fun r => (r.txId, r.companyId, r.is_manual_override)) ∧
    ∀ r2 ∈ db2, r2.txId = tx.id → r2.companyId = cid →
      r2.tag_code = v := by
  simp only [tag_transaction] at h
  cases hl : tagLoop RE cel now tx (tx.external_data.getD [])
      (activeSorted rules) .vnone 0 [] with
  | error e => rw [hl] at h; simp at h
  | ok t =>
    obtain ⟨best, bc, notes⟩ := t
    rw [hl] at h
    simp only [] at h
    by_cases hb : pyTruthy best = true
    · rw [if_pos hb] at h
      simp only [Except.ok.injEq, Prod.mk.injEq] at h
      obtain ⟨hv, hdb⟩ := h
      have hany : (db.any fun r => r.txId = tx.id ∧ r.companyId = cid) = true := by
        simp only [List.any_eq_true]
        exact ⟨row, hrow, by simp [hk1, hk2]⟩
      rw [update_or_create, if_pos hany] at hdb
      constructor
      · rw [← hdb, List.map_map]
        apply List.map_congr_left
        intro r1 hr1
        by_cases hkey : r1.txId = tx.id ∧ r1.companyId = cid
        · simp [upsertRow, hkey]
        · simp [upsertRow, hkey]
      · intro r2 hr2 hx hc
        rw [← hdb] at hr2
        obtain ⟨r1, hr1, hfr⟩ := List.mem_map.mp hr2
        by_cases hkey : r1.txId = tx.id ∧ r1.companyId = cid
        · rw [upsertRow, if_pos hkey] at hfr
          rw [← hfr]
          simp [hv]
        · rw [upsertRow, if_neg hkey] at hfr
          rw [← hfr] at hx hc
          exact absurd ⟨hx, hc⟩ hkey
    · rw [if_neg hb] at h
      simp only [Except.ok.injEq, Prod.mk.injEq] at h
      rw [← h.1] at ht
      simp [pyTruthy] at ht

/-- Witness for C4 (amended): the concrete manual-override row is rewritten
to the engine's tag while its flag survives. -/
theorem C4_witness :
    ({ manualRow with
         tag_code := .vstr "EVAL", confidence_score := 1,
         processing_notes := "Rule 'C1' matched: EVAL",
         updated_at := "T" } : TagRow).tag_code = .vstr "EVAL" ∧
    ({ manualRow with
         tag_code := .vstr "EVAL", confidence_score := 1,
         processing_notes := "Rule 'C1' matched: EVAL",
         updated_at := "T" } : TagRow).is_manual_override = true := by
  have h := C4_manual_override_overwritten sampleRE sampleCel "T" sampleTx 7
    [celRuleHigh] [manualRow] (.vstr "EVAL")
    [{ manualRow with
         tag_code := .vstr "EVAL", confidence_score := 1,
         processing_notes := "Rule 'C1' matched: EVAL", updated_at := "T" }]
    manualRow rfl rfl (by simp) rfl rfl
  refine ⟨?_, rfl⟩
  exact h.2 _ (by simp) rfl rfl

theorem upsertRow_key (t c : Int) (tag : Value) (conf : ℚ) (notes now : String)
    (r : TagRow) :
    ((upsertRow t c tag conf notes now r).txId = t ∧
      (upsertRow t c tag conf notes now r).companyId = c) ↔
      (r.txId = t ∧ r.companyId = c) := by
  by_cases hk : r.txId = t ∧ r.companyId = c <;> simp [upsertRow, hk]

theorem upsertRow_idem (t c : Int) (tag : Value) (conf : ℚ) (notes now : String)
    (r : TagRow) :
    upsertRow t c tag conf notes now (upsertRow t c tag conf notes now r) =
      upsertRow t c tag conf notes now r := by
  by_cases hk : r.txId = t ∧ r.companyId = c <;> simp [upsertRow, hk]

theorem any_map_key (t c : Int) (tag : Value) (conf : ℚ) (notes now : String)
    (db : Db) :
    ((db.map (upsertRow t c tag conf notes now)).any
      (fun r => r.txId = t ∧ r.companyId = c)) =
      (db.any (fun r => r.txId = t ∧ r.companyId = c)) := by
  induction db with
  | nil => rfl
  | cons r rest ih =>
    simp only [List.map_cons, List.any_cons, ih]
    congr 1
    by_cases hk : r.txId = t ∧ r.companyId = c <;> simp [upsertRow, hk]

theorem countKey_map_upsert (t c : Int) (tag : Value) (conf : ℚ)
    (notes now : String) (db : Db) :
    countKey t c (db.map (upsertRow t c tag conf notes now)) =
      countKey t c db := by
  rw [countKey, countKey]
  induction db with
  | nil => rfl
  | cons r rest ih =>
    simp only [List.map_cons, List.filter_cons]
    by_cases hk : r.txId = t ∧ r.companyId = c
    · have h2 : ((upsertRow t c tag conf notes now r).txId = t ∧
          (upsertRow t c tag conf notes now r).companyId = c) := by
        rw [upsertRow_key]; exact hk
      simp [hk, h2]
      simpa using ih
    · have h2 : ¬((upsertRow t c tag conf notes now r).txId = t ∧
          (upsertRow t c tag conf notes now r).companyId = c) := by
        rw [upsertRow_key]; exact hk
      simp [hk, h2]
      simpa using ih

theorem update_or_create_any (t c : Int) (tag : Value) (conf : ℚ)
    (notes now : String) (db : Db) :
    ((update_or_create t c tag conf notes now db).any
      (fun r => r.txId = t ∧ r.companyId = c)) = true := by
  rw [update_or_create]
  by_cases hany : (db.any fun r => r.txId = t ∧ r.companyId = c) = true
  · rw [if_pos hany, any_map_key, hany]
  · rw [if_neg hany]
    simp [newTagRow]

theorem update_or_create_idem (t c : Int) (tag : Value) (conf : ℚ)
    (notes now : String) (db : Db) :
    update_or_create t c tag conf notes now
        (update_or_create t c tag conf notes now db) =
      update_or_create t c tag conf notes now db := by
  by_cases hany : (db.any fun r => r.txId = t ∧ r.companyId = c) = true
  · have h1 : update_or_create t c tag conf notes now db =
        db.map (upsertRow t c tag conf notes now) := by
      rw [update_or_create, if_pos hany]
    have hmap : ((db.map (upsertRow t c tag conf notes now)).any
        (fun r => r.txId = t ∧ r.companyId = c)) = true := by
      rw [any_map_key]
      exact hany
    rw [h1, update_or_create, if_pos hmap, List.map_map]
    apply List.map_congr_left
    intro r hr
    exact upsertRow_idem t c tag conf notes now r
  · have h1 : update_or_create t c tag conf notes now db =
        db ++ [newTagRow t c tag conf notes now] := by
      rw [update_or_create, if_neg hany]
    have happ : ((db ++ [newTagRow t c tag conf notes now] : Db).any
        (fun r => r.txId = t ∧ r.companyId = c)) = true := by
      simp [newTagRow]
    rw [h1, update_or_create, if_pos happ, List.map_append]
    have h2 : db.map (upsertRow t c tag conf notes now) = db := by
      conv_rhs => rw [← List.map_id db]
      apply List.map_congr_left
      intro r hr
      have hnk : ¬(r.txId = t ∧ r.companyId = c) := by
        intro hk
        exact hany (List.any_eq_true.mpr ⟨r, hr, by simp [hk]⟩)
      simp [upsertRow, hnk]
    rw [h2]
    simp [upsertRow, newTagRow]

theorem countKey_update_or_create (t c : Int) (tag : Value) (conf : ℚ)
    (notes now : String) (db : Db) (hc : countKey t c db ≤ 1) :
    countKey t c (update_or_create t c tag conf notes now db) ≤ 1 := by
  rw [update_or_create]
  by_cases hany : (db.any fun r => r.txId = t ∧ r.companyId = c) = true
  · rw [if_pos hany, countKey_map_upsert]
    exact hc
  · rw [if_neg hany]
    rw [countKey] at hc ⊢
    rw [List.filter_append]
    have h0 : (db.filter (fun r => decide (r.txId = t ∧ r.companyId = c))) = [] := by
      rw [List.filter_eq_nil_iff]
      intro r hr hk
      exact hany (List.any_eq_true.mpr ⟨r, hr, by simpa using hk⟩)
    rw [h0]
    simp [newTagRow]

/-- C8: tagging is idempotent.  For every transaction and company, under
the table's uniqueness invariant (at most one TransactionTag row per
(transaction, company)), running tag_transaction a second time with
unchanged rules and metadata returns the same tag, leaves the table
exactly as the first run left it, and the first run leaves at most one row
for the pair — never a duplicate. -/
theorem C8_idempotent (RE : RegexSearch) (cel : CelEval) (now : String)
    (tx : Transaction) (cid : Int) (rules : List TaggingRule) (db : Db)
    (v1 : Value) (db1 : Db) (v2 : Value) (db2 : Db)
    (hc : countKey tx.id cid db ≤ 1)
    (h1 : tag_transaction RE cel now tx cid rules db = .ok (v1, db1))
    (h2 : tag_transaction RE cel now tx cid rules db1 = .ok (v2, db2)) :
    v2 = v1 ∧ db2 = db1 ∧ countKey tx.id cid db1 ≤ 1 := by
  simp only [tag_transaction] at h1 h2
  cases hl : tagLoop RE cel now tx (tx.external_data.getD [])
      (activeSorted rules) .vnone 0 [] with
  | error e => rw [hl] at h1; simp at h1
  | ok t =>
    obtain ⟨best, bc, notes⟩ := t
    rw [hl] at h1 h2
    simp only [] at h1 h2
    by_cases hb : pyTruthy best = true
    · rw [if_pos hb] at h1 h2
      simp only [Except.ok.injEq, Prod.mk.injEq] at h1 h2
      obtain ⟨hv1, hdb1⟩ := h1
      obtain ⟨hv2, hdb2⟩ := h2
      refine ⟨hv2.symm.trans hv1, ?_, ?_⟩
      · rw [← hdb2, ← hdb1, update_or_create_idem]
      · rw [← hdb1]
        exact countKey_update_or_create tx.id cid best bc _ now db hc
    · rw [if_neg hb] at h1 h2
      simp only [Except.ok.injEq, Prod.mk.injEq] at h1 h2
      obtain ⟨hv1, hdb1⟩ := h1
      obtain ⟨hv2, hdb2⟩ := h2
      refine ⟨hv2.symm.trans hv1, hdb2.symm, ?_⟩
      rw [← hdb1]
      exact hc

/-- Witness for C8: running the engine twice over the sample CEL rule
yields the same tag and the same single row. -/
theorem C8_witness :
    (Value.vstr "EVAL") = (.vstr "EVAL") ∧
    ([newTagRow 1 7 (.vstr "EVAL") 1 "Rule 'C1' matched: EVAL" "T"] : Db) =
      [newTagRow 1 7 (.vstr "EVAL") 1 "Rule 'C1' matched: EVAL" "T"] ∧
    countKey 1 7 [newTagRow 1 7 (.vstr "EVAL") 1 "Rule 'C1' matched: EVAL" "T"]
      ≤ 1 := by
  have h := C8_idempotent sampleRE sampleCel "T" sampleTx 7
    [celRuleHigh, ruleLow] [] (.vstr "EVAL")
    [newTagRow 1 7 (.vstr "EVAL") 1 "Rule 'C1' matched: EVAL" "T"]
    (.vstr "EVAL")
    [newTagRow 1 7 (.vstr "EVAL") 1 "Rule 'C1' matched: EVAL" "T"]
    (by decide) rfl rfl
  exact ⟨rfl, rfl, h.2.2⟩

theorem ruleOfData_ruleToData (r : TaggingRule) :
    ruleOfData (ruleToData r) = r := rfl

/-- When every incoming rule validates, and names are fresh and distinct,
the import loop upserts each envelope rule as a new row, in order, with no
errors. -/
theorem importLoop_all_valid (ok : PySyntaxCheck) :
    ∀ (rules : List TaggingRule) (existing : List TaggingRule) (k : Nat)
      (errs : List String),
    (∀ r ∈ rules, validate_rule_config ok r.rule_type r.rule_config =
      .ok true) →
    (∀ r ∈ rules, ∀ r2 ∈ existing, r2.name ≠ r.name) →
    (rules.map TaggingRule.name).Nodup →
    importRulesLoop ok (rules.map ruleToData) existing k errs =
      (existing ++ rules, k + rules.length, errs) := by
  intro rules
  induction rules with
  | nil => intro existing k errs hval hdisj hnd; simp [importRulesLoop]
  | cons r rest ih =>
    intro existing k errs hval hdisj hnd
    have hv := hval r (List.mem_cons_self r rest)
    simp only [List.map_cons, importRulesLoop]
    rw [show (ruleToData r).rule_type = r.rule_type from rfl,
        show (ruleToData r).rule_config = r.rule_config from rfl, hv]
    have hup : upsertRule existing (ruleToData r) = existing ++ [r] := by
      rw [upsertRule]
      have hno : (existing.any fun r2 => r2.name = (ruleToData r).name) = false := by
        rw [List.any_eq_false]
        intro r2 hr2
        simpa using hdisj r (List.mem_cons_self r rest) r2 hr2
      rw [hno]
      simp [ruleOfData_ruleToData]
    rw [hup]
    have hnd2 : (rest.map TaggingRule.name).Nodup := (List.nodup_cons.mp hnd).2
    have hdisj2 : ∀ r3 ∈ rest, ∀ r2 ∈ existing ++ [r], r2.name ≠ r3.name := by
      intro r3 hr3 r2 hr2
      rcases List.mem_append.mp hr2 with h2 | h2
      · exact hdisj r3 (List.mem_cons_of_mem r hr3) r2 h2
      · have : r2 = r := List.mem_singleton.mp h2
        subst this
        intro heq
        have : r2.name ∈ rest.map TaggingRule.name :=
          List.mem_map.mpr ⟨r3, hr3, heq.symm⟩
        exact (List.nodup_cons.mp hnd).1 this
    have hval2 : ∀ r3 ∈ rest, validate_rule_config ok r3.rule_type
        r3.rule_config = .ok true := fun r3 hr3 =>
      hval r3 (List.mem_cons_of_mem r hr3)
    rw [ih (existing ++ [r]) (k + 1) errs hval2 hdisj2 hnd2]
    simp [List.append_assoc]
    omega

/-- C7 as amended: export followed by import into a company with the same
code and no rules reproduces exactly the original rules — by name,
rule_type, priority, rule_config, conditions and is_active — PROVIDED every
rule's rule_config passes `validate_rule_config` for its rule_type.  (The
unconditional claim fails: import validates each rule and drops the ones
that do not validate, as the counterexample shows.) -/
theorem C7_roundtrip_of_valid (ok : PySyntaxCheck) (code cname : String)
    (rules : List TaggingRule)
    (hval : ∀ r ∈ rules, validate_rule_config ok r.rule_type
      r.rule_config = .ok true)
    (hnd : (rules.map TaggingRule.name).Nodup) :
    import_rules_from_json ok (export_rules_to_json code cname rules) [] =
      (rules, rules.length, []) := by
  unfold import_rules_from_json export_rules_to_json
  simpa using importLoop_all_valid ok rules [] 0 [] hval (by simp) hnd

/-- C7 counterexample: a conditional rule with an empty rule_config is a
legal table row and exports fine, but import validation rejects it, so
importing the exported envelope into a fresh company with the same code
produces the empty rule set, not the original one. -/
theorem C7_counterexample :
    import_rules_from_json (fun _ => true)
        (export_rules_to_json "CC" "CN" [ruleCondEmptyCfg]) [] =
      ([], 0,
       ["Error importing rule 'RC': Conditional rules must have conditions field"]) ∧
    ([ruleCondEmptyCfg] : List TaggingRule) ≠ [] := by
  refine ⟨rfl, by simp⟩

/-- Witness for C7 (amended): a two-rule set whose configs validate round
trips exactly. -/
theorem C7_witness :
    import_rules_from_json (fun _ => true)
        (export_rules_to_json "CC" "CN" [ruleHigh, ruleLow]) [] =
      ([ruleHigh, ruleLow], 2, []) := by
  have h := C7_roundtrip_of_valid (fun _ => true) "CC" "CN"
    [ruleHigh, ruleLow]
    (by
      intro r hr
      rcases List.mem_cons.mp hr with h1 | h1
      · subst h1; rfl
      · have h2 := List.mem_singleton.mp h1
        subst h2; rfl)
    (by simp [ruleHigh, ruleLow])
  simpa using h
